import Mathlib

/-!
Verification of the progressive tax-bracket allocation core of the
retirement-simulator dashboard (src/app.py), embedded shallowly in Lean.

Monetary amounts and rates are modelled as rationals (ℚ).  Python's
`float('inf')` upper bound of the top bracket is modelled as `none` in an
`Option ℚ` field, with `omin` playing the role of `min` against a possibly
infinite bound (`min x inf = x`).
-/

namespace App

/-- A tax bracket as in the `TAX_BRACKETS` literal of src/app.py:
a name, a lower bound `low`, an upper bound `high` (`none` = `float('inf')`)
and a marginal `rate`. -/
structure Bracket where
  name : String
  low : ℚ
  high : Option ℚ
  rate : ℚ
deriving DecidableEq, Repr

/-- Python's `min(x, h)` where `h` may be the infinite sentinel: `min x inf = x`. -/
def omin (x : ℚ) : Option ℚ → ℚ
  | none => x
  | some h => min x h

/-- Python's `income < bracket['high']` where `high` may be `inf`. -/
def oLt (x : ℚ) : Option ℚ → Prop
  | none => True
  | some h => x < h

instance (x : ℚ) : (h : Option ℚ) → Decidable (oLt x h)
  | none => .isTrue trivial
  | some h => inferInstanceAs (Decidable (x < h))

/-- The `TAX_BRACKETS` constant of src/app.py lines 49-56. -/
def TAX_BRACKETS : List Bracket :=
  [ ⟨"Floor 1", 0, some 53891, 0.2005⟩,
    ⟨"Floor 2", 53891, some 58523, 0.2415⟩,
    ⟨"Floor 3", 58523, some 94907, 0.2965⟩,
    ⟨"Floor 4", 94907, some 117045, 0.3148⟩,
    ⟨"Floor 5", 117045, some 181440, 0.3389⟩,
    ⟨"Penthouse", 181440, none, 0.4797⟩ ]

/-- The bracket loop of `calculate_tax_on_income` (src/app.py lines 63-67):
for each bracket with `income > low`, add `(min(income, high) - low) * rate`. -/
def taxSum (income : ℚ) : List Bracket → ℚ
  | [] => 0
  | b :: rest =>
      (if b.low < income then (omin income b.high - b.low) * b.rate else 0) +
        taxSum income rest

/-- Function `calculate_tax_on_income` (src/app.py lines 58-69): returns 0 when
`income <= 0`, otherwise the marginal-bracket sum. -/
def calculate_tax_on_income (income : ℚ) : ℚ :=
  if income ≤ 0 then 0 else taxSum income TAX_BRACKETS

/-- Function `calculate_tax_refund` (src/app.py lines 71-80): returns 0 when
`gross_income <= 0`, otherwise `max(0, tax(gross) - tax(gross - rrsp))`. -/
def calculate_tax_refund (gross_income rrsp_contributions : ℚ) : ℚ :=
  if gross_income ≤ 0 then 0
  else
    max 0 (calculate_tax_on_income gross_income -
      calculate_tax_on_income (gross_income - rrsp_contributions))

/-- The bracket scan of `get_marginal_rate` (src/app.py lines 87-89):
the first bracket with `low <= income < high`, if any. -/
def findRate (income : ℚ) : List Bracket → Option ℚ
  | [] => none
  | b :: rest =>
      if b.low ≤ income ∧ oLt income b.high then some b.rate
      else findRate income rest

/-- Function `get_marginal_rate` (src/app.py lines 82-91): 0 when `income <= 0`,
else the rate of the bracket containing `income`, falling back to the last
bracket's rate (`TAX_BRACKETS[-1]['rate']`). -/
def get_marginal_rate (income : ℚ) : ℚ :=
  if income ≤ 0 then 0
  else
    match findRate income TAX_BRACKETS with
    | some r => r
    | none => ((TAX_BRACKETS.getLast?).map Bracket.rate).getD 0

/-- Variable `taxable_income` (src/app.py line 1997): `max(0, gross - contributions)`. -/
def taxable_income (total_gross_income total_rrsp_contributions : ℚ) : ℚ :=
  max 0 (total_gross_income - total_rrsp_contributions)

/-- One per-bracket allocation record, as computed at src/app.py lines
503-512 before the rows are split by status: the spec's `AllocationResult`. -/
structure AllocationResult where
  floor : String
  total : ℚ
  taxed : ℚ
  shielded : ℚ
  rate : ℚ
deriving DecidableEq, Repr

/-- The allocation loop of src/app.py lines 501-512, one `AllocationResult`
per bracket: `total = min(gross, high) - low`; a bracket with `total <= 0` is
skipped (`continue`); else `taxed = max(0, min(high, taxable) - low)` and
`shielded = total - taxed`. -/
def allocAux (g t : ℚ) : List Bracket → List AllocationResult
  | [] => []
  | b :: rest =>
      let total := omin g b.high - b.low
      if total ≤ 0 then allocAux g t rest
      else
        let taxed := max 0 (omin t b.high - b.low)
        ⟨b.name, total, taxed, total - taxed, b.rate⟩ :: allocAux g t rest

/-- The full allocation of src/app.py: the loop of lines 501-512 run over
`TAX_BRACKETS` with `taxable_income` from line 1997. -/
def allocate (g s : ℚ) : List AllocationResult :=
  allocAux g (taxable_income g s) TAX_BRACKETS

/-- One emitted row of the `building_data` list (src/app.py lines 514-528).
The code formats `Rate` as a percentage string; the numeric rate is kept. -/
structure Row where
  floor : String
  amount : ℚ
  status : String
  rate : ℚ
deriving DecidableEq, Repr

/-- The row-emission part of the loop, src/app.py lines 501-528: a
`Tax-Shielded` row when `shielded_amt > 0`, then a `Taxable` row when
`taxed_amt > 0`. -/
def rowsAux (g t : ℚ) : List Bracket → List Row
  | [] => []
  | b :: rest =>
      let total := omin g b.high - b.low
      if total ≤ 0 then rowsAux g t rest
      else
        let taxed := max 0 (omin t b.high - b.low)
        let shielded := total - taxed
        (if 0 < shielded then [⟨b.name, shielded, "Tax-Shielded", b.rate⟩] else []) ++
          (if 0 < taxed then [⟨b.name, taxed, "Taxable", b.rate⟩] else []) ++
            rowsAux g t rest

/-- The `building_data` rows of src/app.py lines 499-528. -/
def building_data (g s : ℚ) : List Row :=
  rowsAux g (taxable_income g s) TAX_BRACKETS

/-- Spec §4.1 step 3: `totalTax = Σ taxedAmount_i * rate_i` over emitted
results. -/
def totalTax (rs : List AllocationResult) : ℚ :=
  (rs.map fun r => r.taxed * r.rate).sum

/-- Total shielded amount across all emitted results (spec §8, monotonic
shielding). -/
def totalShielded (rs : List AllocationResult) : ℚ :=
  (rs.map fun r => r.shielded).sum

/-- Sum of `totalAmountInBracket` over emitted results (spec §8,
conservation). -/
def sumTotals (rs : List AllocationResult) : ℚ :=
  (rs.map fun r => r.total).sum

/-- Modelled from the spec (§4.1 step 4), absent as a separate function in
src/app.py: the rate of the last emitted result whose `taxedAmount > 0`,
and 0 when there is none. -/
def lastTaxedRate (rs : List AllocationResult) : ℚ :=
  rs.foldl (fun acc r => if 0 < r.taxed then r.rate else acc) 0

/-- Predicate `ChainFrom lo bs`: the brackets `bs` form a contiguous ascending chain
starting at lower bound `lo`, every bounded bracket nonempty, and the chain
ends with the single unbounded bracket.  `TAX_BRACKETS` satisfies
`ChainFrom 0`. -/
def ChainFrom (lo : ℚ) : List Bracket → Prop
  | [] => False
  | b :: rest =>
      b.low = lo ∧
        ((b.high = none ∧ rest = []) ∨
          ∃ h, b.high = some h ∧ lo < h ∧ ChainFrom h rest)

/-- The allocation result the loop body of src/app.py lines 503-512 builds
for one bracket, as a function of gross `g` and taxable `t`. -/
def bracketResult (g t : ℚ) (b : Bracket) : AllocationResult :=
  ⟨b.name, omin g b.high - b.low, max 0 (omin t b.high - b.low),
    (omin g b.high - b.low) - max 0 (omin t b.high - b.low), b.rate⟩

/-- Modelled from the spec (§4.1 step 2a): the same per-bracket loop but
with break semantics — "iterate ascending; stop (break) the first time
`totalAmountInBracket <= 0`". -/
def allocStopAux (g t : ℚ) : List Bracket → List AllocationResult
  | [] => []
  | b :: rest =>
      let total := omin g b.high - b.low
      if total ≤ 0 then []
      else
        let taxed := max 0 (omin t b.high - b.low)
        ⟨b.name, total, taxed, total - taxed, b.rate⟩ :: allocStopAux g t rest

/-- Modelled from the spec: the full allocation under the spec's stated
break-on-first-empty-bracket iteration order. -/
def allocateStop (g s : ℚ) : List AllocationResult :=
  allocStopAux g (taxable_income g s) TAX_BRACKETS

/-- Modelled from the spec (§7): the error conditions `BracketTable.build`
reports; absent from src/app.py, where `TAX_BRACKETS` is an unvalidated
literal. -/
inductive MalformedBracketTable where
  | emptyTable
  | notAscending
  | gapOrOverlap
  | decreasingRates
  | firstLowerBoundNotZero
  | emptyTopBracket
deriving DecidableEq, Repr

/-- Boolean check that `p` holds for every adjacent pair of brackets. -/
def pairwiseB (p : Bracket → Bracket → Bool) : List Bracket → Bool
  | [] => true
  | [_] => true
  | a :: b :: r => p a b && pairwiseB p (b :: r)

/-- Modelled from the spec (§4.2): `BracketTable.build` validates the §3
invariants in the order the spec lists them — ascending lower bounds,
contiguity (which also rules out overlaps and a non-final unbounded
bracket), non-decreasing rates, first lower bound 0, non-empty top
bracket — failing with the first violated invariant's name. -/
def build (bs : List Bracket) : Except MalformedBracketTable (List Bracket) :=
  if bs.isEmpty then .error .emptyTable
  else if ¬ pairwiseB (fun a b => decide (a.low < b.low)) bs then .error .notAscending
  else if ¬ pairwiseB (fun a b => decide (a.high = some b.low)) bs then .error .gapOrOverlap
  else if ¬ pairwiseB (fun a b => decide (a.rate ≤ b.rate)) bs then .error .decreasingRates
  else if ¬ bs.head?.all (fun b => decide (b.low = 0)) then .error .firstLowerBoundNotZero
  else if ¬ bs.getLast?.all (fun b => decide (oLt b.low b.high)) then .error .emptyTopBracket
  else .ok bs

/-- The §3 invariants of a bracket sequence, stated declaratively:
non-empty; lower bounds strictly ascending; adjacent brackets contiguous
(`upperBound = next lowerBound`, hence non-overlapping and gapless, and
only the last bracket may be unbounded); rates non-decreasing; first lower
bound 0; the last bracket's range non-empty. -/
def ValidSeq (bs : List Bracket) : Prop :=
  bs ≠ [] ∧
    List.Chain' (fun a b => a.low < b.low) bs ∧
    List.Chain' (fun a b => a.high = some b.low) bs ∧
    List.Chain' (fun a b => a.rate ≤ b.rate) bs ∧
    (∀ b ∈ bs.head?, b.low = 0) ∧
    (∀ b ∈ bs.getLast?, oLt b.low b.high)

/-! ### Basic lemmas -/

theorem omin_mono {x y : ℚ} (h : x ≤ y) : ∀ o : Option ℚ, omin x o ≤ omin y o
  | none => h
  | some _ => min_le_min h le_rfl

theorem omin_le_self (x : ℚ) : ∀ o : Option ℚ, omin x o ≤ x
  | none => le_rfl
  | some v => min_le_left x v

/-- For a bracket with non-empty range, its slice of `g` is positive exactly
when `g` goes past its lower bound. -/
theorem total_pos_iff (b : Bracket) (hwf : oLt b.low b.high) (g : ℚ) :
    0 < omin g b.high - b.low ↔ b.low < g := by
  rw [sub_pos]
  cases hb : b.high with
  | none => simp [omin]
  | some h =>
      rw [hb] at hwf
      simp only [oLt] at hwf
      simp [omin, lt_min_iff, hwf]

theorem sumTotals_nil : sumTotals [] = 0 := rfl

theorem sumTotals_cons (r : AllocationResult) (rs : List AllocationResult) :
    sumTotals (r :: rs) = r.total + sumTotals rs := by
  simp [sumTotals]

theorem totalTax_nil : totalTax [] = 0 := rfl

theorem totalTax_cons (r : AllocationResult) (rs : List AllocationResult) :
    totalTax (r :: rs) = r.taxed * r.rate + totalTax rs := by
  simp [totalTax]

theorem totalShielded_nil : totalShielded [] = 0 := rfl

theorem totalShielded_cons (r : AllocationResult) (rs : List AllocationResult) :
    totalShielded (r :: rs) = r.shielded + totalShielded rs := by
  simp [totalShielded]

/-! ### The allocation loop: per-result invariants -/

/-- Every record the loop emits conserves its bracket slice and has
non-negative parts, provided taxable income does not exceed gross. -/
theorem allocAux_mem (g t : ℚ) (htg : t ≤ g) :
    ∀ bs : List Bracket, ∀ r ∈ allocAux g t bs,
      r.shielded + r.taxed = r.total ∧ 0 ≤ r.taxed ∧ 0 ≤ r.shielded ∧ 0 < r.total := by
  intro bs
  induction bs with
  | nil => intro r hr; simp [allocAux] at hr
  | cons b rest ih =>
      intro r hr
      simp only [allocAux] at hr
      by_cases hle : omin g b.high - b.low ≤ 0
      · rw [if_pos hle] at hr
        exact ih r hr
      · rw [if_neg hle] at hr
        rcases List.mem_cons.mp hr with h | h
        · subst h
          have htot : 0 < omin g b.high - b.low := lt_of_not_le hle
          have h1 : omin t b.high ≤ omin g b.high := omin_mono htg b.high
          have h2 : max 0 (omin t b.high - b.low) ≤ max 0 (omin g b.high - b.low) :=
            max_le_max le_rfl (by linarith)
          have h3 : max 0 (omin g b.high - b.low) = omin g b.high - b.low :=
            max_eq_right htot.le
          refine ⟨by ring, le_max_left _ _, ?_, htot⟩
          show 0 ≤ omin g b.high - b.low - max 0 (omin t b.high - b.low)
          linarith
        · exact ih r h

/-! ### The allocation loop over a contiguous chain -/

/-- Conservation: over a contiguous chain starting at `lo` and ending
unbounded, the emitted bracket slices sum to `max 0 (g - lo)`. -/
theorem allocAux_sumTotals (g t : ℚ) :
    ∀ (bs : List Bracket) (lo : ℚ), ChainFrom lo bs →
      sumTotals (allocAux g t bs) = max 0 (g - lo) := by
  intro bs
  induction bs with
  | nil => intro lo hc; simp [ChainFrom] at hc
  | cons b rest ih =>
      intro lo hc
      obtain ⟨hlow, hcase⟩ := hc
      rcases hcase with ⟨hb, hrest⟩ | ⟨h, hb, hlh, hchain⟩
      · subst hrest
        simp only [allocAux, hb, omin, hlow]
        by_cases hle : g - lo ≤ 0
        · rw [if_pos hle]
          rw [sumTotals_nil, max_eq_left hle]
        · rw [if_neg hle]
          simp only [sumTotals_cons, sumTotals_nil]
          rw [max_eq_right (le_of_lt (lt_of_not_le hle))]
          ring
      · simp only [allocAux, hb, omin, hlow]
        by_cases hle : min g h - lo ≤ 0
        · rw [if_pos hle, ih h hchain]
          have hg : g ≤ lo := by
            rcases le_total g h with hgh | hgh
            · rw [min_eq_left hgh] at hle; linarith
            · rw [min_eq_right hgh] at hle; linarith
          rw [max_eq_left (by linarith), max_eq_left (by linarith)]
        · rw [if_neg hle]
          simp only [sumTotals_cons, ih h hchain]
          rcases le_total g h with hgh | hgh
          · rw [min_eq_left hgh] at hle ⊢
            rw [max_eq_left (by linarith),
              max_eq_right (le_of_lt (lt_of_not_le hle))]
            ring
          · rw [min_eq_right hgh] at hle ⊢
            rw [max_eq_right (by linarith), max_eq_right (by linarith)]
            ring

/-- Below the chain's start nothing is emitted. -/
theorem allocAux_nil (g t : ℚ) :
    ∀ (bs : List Bracket) (lo : ℚ), ChainFrom lo bs → g ≤ lo →
      allocAux g t bs = [] := by
  intro bs
  induction bs with
  | nil => intro lo hc _; simp [ChainFrom] at hc
  | cons b rest ih =>
      intro lo hc hg
      obtain ⟨hlow, hcase⟩ := hc
      rcases hcase with ⟨hb, hrest⟩ | ⟨h, hb, hlh, hchain⟩
      · subst hrest
        simp only [allocAux, hb, omin, hlow]
        rw [if_pos (by linarith)]
      · simp only [allocAux, hb, omin, hlow]
        have hmin : min g h ≤ lo := le_trans (min_le_left g h) hg
        rw [if_pos (by linarith)]
        exact ih h hchain (by linarith)

/-- Over a contiguous chain, the spec's break-on-first-empty-bracket loop
and the code's skip-and-continue loop emit the same list. -/
theorem allocStopAux_eq (g t : ℚ) :
    ∀ (bs : List Bracket) (lo : ℚ), ChainFrom lo bs →
      allocStopAux g t bs = allocAux g t bs := by
  intro bs
  induction bs with
  | nil => intro lo hc; simp [ChainFrom] at hc
  | cons b rest ih =>
      intro lo hc
      obtain ⟨hlow, hcase⟩ := hc
      rcases hcase with ⟨hb, hrest⟩ | ⟨h, hb, hlh, hchain⟩
      · subst hrest
        simp only [allocStopAux, allocAux, hb, omin, hlow]
      · simp only [allocStopAux, allocAux, hb, omin, hlow]
        by_cases hle : min g h - lo ≤ 0
        · rw [if_pos hle, if_pos hle]
          have hg : g ≤ lo := by
            rcases le_total g h with hgh | hgh
            · rw [min_eq_left hgh] at hle; linarith
            · rw [min_eq_right hgh] at hle; linarith
          rw [allocAux_nil g t rest h hchain (by linarith)]
        · rw [if_neg hle, if_neg hle, ih h hchain]

/-- The loop emits exactly one record per bracket whose lower bound lies
below gross income, in table order. -/
theorem allocAux_filter (g t : ℚ) :
    ∀ bs : List Bracket, (∀ b ∈ bs, oLt b.low b.high) →
      allocAux g t bs =
        (bs.filter fun b => decide (b.low < g)).map (bracketResult g t) := by
  intro bs
  induction bs with
  | nil => intro _; simp [allocAux]
  | cons b rest ih =>
      intro hwf
      have hwfb : oLt b.low b.high := hwf b (List.mem_cons_self b rest)
      have hwfr : ∀ x ∈ rest, oLt x.low x.high :=
        fun x hx => hwf x (List.mem_cons_of_mem b hx)
      simp only [allocAux]
      by_cases hlg : b.low < g
      · rw [if_neg (by rw [not_le]; exact (total_pos_iff b hwfb g).mpr hlg)]
        rw [List.filter_cons_of_pos (by simpa using hlg), List.map_cons, ih hwfr]
        rfl
      · rw [if_pos (by
          rw [← not_lt]
          exact fun hpos => hlg ((total_pos_iff b hwfb g).mp hpos))]
        rw [List.filter_cons_of_neg (by simpa using hlg), ih hwfr]

/-! ### Monotonicity in the taxable amount -/

/-- Raising taxable income never lowers any bracket's taxed slice, hence
never lowers the taxed-times-rate total (rates being non-negative). -/
theorem allocAux_totalTax_mono (g : ℚ) {t t' : ℚ} (htt : t ≤ t') :
    ∀ bs : List Bracket, (∀ b ∈ bs, 0 ≤ b.rate) →
      totalTax (allocAux g t bs) ≤ totalTax (allocAux g t' bs) := by
  intro bs
  induction bs with
  | nil => intro _; simp [allocAux]
  | cons b rest ih =>
      intro hr
      have hrb : 0 ≤ b.rate := hr b (List.mem_cons_self b rest)
      have hrr : ∀ x ∈ rest, 0 ≤ x.rate :=
        fun x hx => hr x (List.mem_cons_of_mem b hx)
      simp only [allocAux]
      by_cases hle : omin g b.high - b.low ≤ 0
      · rw [if_pos hle, if_pos hle]
        exact ih hrr
      · rw [if_neg hle, if_neg hle]
        simp only [totalTax_cons]
        have htx : max 0 (omin t b.high - b.low) ≤ max 0 (omin t' b.high - b.low) :=
          max_le_max le_rfl (by have := omin_mono htt b.high; linarith)
        exact add_le_add (mul_le_mul_of_nonneg_right htx hrb) (ih hrr)

/-- Raising taxable income never raises any bracket's shielded slice. -/
theorem allocAux_totalShielded_mono (g : ℚ) {t t' : ℚ} (htt : t ≤ t') :
    ∀ bs : List Bracket,
      totalShielded (allocAux g t' bs) ≤ totalShielded (allocAux g t bs) := by
  intro bs
  induction bs with
  | nil => simp [allocAux]
  | cons b rest ih =>
      simp only [allocAux]
      by_cases hle : omin g b.high - b.low ≤ 0
      · rw [if_pos hle, if_pos hle]
        exact ih
      · rw [if_neg hle, if_neg hle]
        simp only [totalShielded_cons]
        have htx : max 0 (omin t b.high - b.low) ≤ max 0 (omin t' b.high - b.low) :=
          max_le_max le_rfl (by have := omin_mono htt b.high; linarith)
        exact add_le_add (by linarith) ih

/-! ### Zero shielding and full shielding -/

/-- With taxable income equal to gross income, every emitted record is
fully taxed and carries no shielded amount. -/
theorem allocAux_self_taxed (g : ℚ) :
    ∀ bs : List Bracket, ∀ r ∈ allocAux g g bs,
      r.taxed = r.total ∧ r.shielded = 0 := by
  intro bs
  induction bs with
  | nil => intro r hr; simp [allocAux] at hr
  | cons b rest ih =>
      intro r hr
      simp only [allocAux] at hr
      by_cases hle : omin g b.high - b.low ≤ 0
      · rw [if_pos hle] at hr
        exact ih r hr
      · rw [if_neg hle] at hr
        rcases List.mem_cons.mp hr with h | h
        · subst h
          have hmax : max 0 (omin g b.high - b.low) = omin g b.high - b.low :=
            max_eq_right (le_of_lt (lt_of_not_le hle))
          constructor
          · show max 0 (omin g b.high - b.low) = omin g b.high - b.low
            exact hmax
          · show omin g b.high - b.low - max 0 (omin g b.high - b.low) = 0
            rw [hmax]; ring
        · exact ih r h

/-- The bracket sum of `calculate_tax_on_income` at income `g` equals the
taxed-times-rate total of the allocation run with taxable income `g`. -/
theorem taxSum_eq_totalTax (g : ℚ) :
    ∀ bs : List Bracket, (∀ b ∈ bs, oLt b.low b.high) →
      taxSum g bs = totalTax (allocAux g g bs) := by
  intro bs
  induction bs with
  | nil => intro _; simp [taxSum, allocAux, totalTax_nil]
  | cons b rest ih =>
      intro hwf
      have hwfb : oLt b.low b.high := hwf b (List.mem_cons_self b rest)
      have hwfr : ∀ x ∈ rest, oLt x.low x.high :=
        fun x hx => hwf x (List.mem_cons_of_mem b hx)
      simp only [taxSum, allocAux]
      by_cases hlg : b.low < g
      · have htot : 0 < omin g b.high - b.low := (total_pos_iff b hwfb g).mpr hlg
        rw [if_pos hlg, if_neg (not_le.mpr htot)]
        simp only [totalTax_cons]
        rw [max_eq_right htot.le, ih hwfr]
      · have htot : omin g b.high - b.low ≤ 0 := by
          rw [← not_lt]
          exact fun hpos => hlg ((total_pos_iff b hwfb g).mp hpos)
        rw [if_neg hlg, if_pos htot, ih hwfr]
        ring

/-- With non-positive taxable income and non-negative lower bounds, every
emitted record's taxed slice is zero. -/
theorem allocAux_taxed_zero (g t : ℚ) (ht : t ≤ 0) :
    ∀ bs : List Bracket, (∀ b ∈ bs, 0 ≤ b.low) →
      ∀ r ∈ allocAux g t bs, r.taxed = 0 := by
  intro bs
  induction bs with
  | nil => intro _ r hr; simp [allocAux] at hr
  | cons b rest ih =>
      intro hlo r hr
      have hlob : 0 ≤ b.low := hlo b (List.mem_cons_self b rest)
      have hlor : ∀ x ∈ rest, 0 ≤ x.low :=
        fun x hx => hlo x (List.mem_cons_of_mem b hx)
      simp only [allocAux] at hr
      by_cases hle : omin g b.high - b.low ≤ 0
      · rw [if_pos hle] at hr
        exact ih hlor r hr
      · rw [if_neg hle] at hr
        rcases List.mem_cons.mp hr with h | h
        · subst h
          show max 0 (omin t b.high - b.low) = 0
          have := omin_le_self t b.high
          exact max_eq_left (by linarith)
        · exact ih hlor r h

theorem totalTax_eq_zero {rs : List AllocationResult}
    (h : ∀ r ∈ rs, r.taxed = 0) : totalTax rs = 0 := by
  induction rs with
  | nil => rfl
  | cons r rest ih =>
      rw [totalTax_cons, h r (List.mem_cons_self r rest),
        ih fun x hx => h x (List.mem_cons_of_mem r hx)]
      ring

/-! ### Emitted rows -/

/-- Every row the `building_data` loop emits has a positive amount. -/
theorem rowsAux_amount_pos (g t : ℚ) :
    ∀ bs : List Bracket, ∀ r ∈ rowsAux g t bs, 0 < r.amount := by
  intro bs
  induction bs with
  | nil => intro r hr; simp [rowsAux] at hr
  | cons b rest ih =>
      intro r hr
      simp only [rowsAux] at hr
      by_cases hle : omin g b.high - b.low ≤ 0
      · rw [if_pos hle] at hr
        exact ih r hr
      · rw [if_neg hle] at hr
        rcases List.mem_append.mp hr with h1 | h1
        · rcases List.mem_append.mp h1 with h2 | h2
          · by_cases hsh :
              0 < omin g b.high - b.low - max 0 (omin t b.high - b.low)
            · rw [if_pos hsh] at h2
              rcases List.mem_singleton.mp h2 with rfl
              exact hsh
            · rw [if_neg hsh] at h2
              simp at h2
          · by_cases htx : 0 < max 0 (omin t b.high - b.low)
            · rw [if_pos htx] at h2
              rcases List.mem_singleton.mp h2 with rfl
              exact htx
            · rw [if_neg htx] at h2
              simp at h2
        · exact ih r h1

/-! ### Facts about the concrete `TAX_BRACKETS` table -/

theorem chain_TAX : ChainFrom 0 TAX_BRACKETS := by
  norm_num [ChainFrom, TAX_BRACKETS]

theorem wf_TAX : ∀ b ∈ TAX_BRACKETS, oLt b.low b.high := by
  norm_num [TAX_BRACKETS, oLt]

theorem rates_TAX : ∀ b ∈ TAX_BRACKETS, 0 ≤ b.rate := by
  norm_num [TAX_BRACKETS]

theorem lows_TAX : ∀ b ∈ TAX_BRACKETS, 0 ≤ b.low := by
  norm_num [TAX_BRACKETS]

theorem totalTax_eq_totalsRate {rs : List AllocationResult}
    (h : ∀ r ∈ rs, r.taxed = r.total) :
    totalTax rs = (rs.map fun r => r.total * r.rate).sum := by
  induction rs with
  | nil => rfl
  | cons r rest ih =>
      rw [totalTax_cons, h r (List.mem_cons_self r rest), List.map_cons,
        List.sum_cons, ih fun x hx => h x (List.mem_cons_of_mem r hx)]

theorem taxable_le_gross {g s : ℚ} (hg : 0 ≤ g) (hs : 0 ≤ s) :
    taxable_income g s ≤ g :=
  max_le hg (by linarith)

/-- Over a contiguous chain, folding the last-positively-taxed rate over the
emitted allocation equals folding the rate of the last bracket whose lower
bound lies below taxable income over the bracket table itself: a bracket's
taxed slice is positive exactly when taxable income passes its lower bound,
and brackets above gross income (hence above taxable income) keep the
accumulator. -/
theorem allocAux_lastTaxed (g t : ℚ) :
    ∀ (bs : List Bracket) (lo acc : ℚ), ChainFrom lo bs → t ≤ g →
      List.foldl (fun a r => if 0 < r.taxed then r.rate else a) acc
          (allocAux g t bs) =
        List.foldl (fun a b => if b.low < t then b.rate else a) acc bs := by
  intro bs
  induction bs with
  | nil => intro lo acc hc _; simp [ChainFrom] at hc
  | cons b rest ih =>
      intro lo acc hc htg
      obtain ⟨hlow, hcase⟩ := hc
      rcases hcase with ⟨hb, hrest⟩ | ⟨h, hb, hlh, hchain⟩
      · subst hrest
        simp only [allocAux, hb, omin, hlow, List.foldl_cons, List.foldl_nil]
        by_cases hle : g - lo ≤ 0
        · rw [if_pos hle, if_neg (show ¬ lo < t by
            rw [not_lt]; linarith), List.foldl_nil]
        · rw [if_neg hle, List.foldl_cons, List.foldl_nil]
          by_cases hlt : lo < t
          · rw [if_pos hlt,
              if_pos (show 0 <
                (⟨b.name, g - lo, max 0 (t - lo),
                  g - lo - max 0 (t - lo), b.rate⟩ : AllocationResult).taxed by
                show 0 < max 0 (t - lo)
                rw [max_eq_right (by linarith)]
                linarith)]
          · rw [if_neg hlt,
              if_neg (show ¬ 0 <
                (⟨b.name, g - lo, max 0 (t - lo),
                  g - lo - max 0 (t - lo), b.rate⟩ : AllocationResult).taxed by
                show ¬ 0 < max 0 (t - lo)
                rw [max_eq_left (by rw [not_lt] at hlt; linarith)]
                exact lt_irrefl 0)]
      · simp only [allocAux, hb, omin, hlow, List.foldl_cons]
        by_cases hle : min g h - lo ≤ 0
        · have hg : g ≤ lo := by
            rcases le_total g h with hgh | hgh
            · rw [min_eq_left hgh] at hle; linarith
            · rw [min_eq_right hgh] at hle; linarith
          rw [if_pos hle, ih h acc hchain htg,
            if_neg (show ¬ lo < t by rw [not_lt]; linarith)]
        · rw [if_neg hle, List.foldl_cons]
          by_cases hlt : lo < t
          · rw [if_pos hlt,
              if_pos (show 0 <
                (⟨b.name, min g h - lo, max 0 (min t h - lo),
                  min g h - lo - max 0 (min t h - lo), b.rate⟩ :
                    AllocationResult).taxed by
                show 0 < max 0 (min t h - lo)
                have hm : 0 < min t h - lo := by
                  rw [sub_pos, lt_min_iff]
                  exact ⟨hlt, hlh⟩
                rw [max_eq_right hm.le]
                exact hm)]
            exact ih h b.rate hchain htg
          · rw [if_neg hlt,
              if_neg (show ¬ 0 <
                (⟨b.name, min g h - lo, max 0 (min t h - lo),
                  min g h - lo - max 0 (min t h - lo), b.rate⟩ :
                    AllocationResult).taxed by
                show ¬ 0 < max 0 (min t h - lo)
                have hm : min t h - lo ≤ 0 := by
                  have := min_le_left t h
                  rw [not_lt] at hlt
                  linarith
                rw [max_eq_left hm]
                exact lt_irrefl 0)]
            exact ih h acc hchain htg

/-! ### Validation checker lemmas (spec-modelled `BracketTable.build`) -/

theorem pairwiseB_iff (p : Bracket → Bracket → Bool) :
    ∀ bs : List Bracket,
      pairwiseB p bs = true ↔ List.Chain' (fun a b => p a b = true) bs := by
  intro bs
  induction bs with
  | nil => simp [pairwiseB]
  | cons a r ih =>
      cases r with
      | nil => simp [pairwiseB]
      | cons b r' =>
          rw [pairwiseB, Bool.and_eq_true, List.chain'_cons, ih]

theorem option_all_iff (p : Bracket → Bool) (o : Option Bracket) :
    o.all p = true ↔ ∀ b ∈ o, p b = true := by
  cases o <;> simp [Option.all]

theorem build_ok_iff (bs : List Bracket) :
    (∃ t, build bs = Except.ok t) ↔ ValidSeq bs := by
  have ha : pairwiseB (fun a b => decide (a.low < b.low)) bs = true ↔
      List.Chain' (fun a b : Bracket => a.low < b.low) bs := by
    rw [pairwiseB_iff]
    simp only [decide_eq_true_eq]
  have hc : pairwiseB (fun a b => decide (a.high = some b.low)) bs = true ↔
      List.Chain' (fun a b : Bracket => a.high = some b.low) bs := by
    rw [pairwiseB_iff]
    simp only [decide_eq_true_eq]
  have hr : pairwiseB (fun a b => decide (a.rate ≤ b.rate)) bs = true ↔
      List.Chain' (fun a b : Bracket => a.rate ≤ b.rate) bs := by
    rw [pairwiseB_iff]
    simp only [decide_eq_true_eq]
  have hh : bs.head?.all (fun b => decide (b.low = 0)) = true ↔
      ∀ b ∈ bs.head?, b.low = 0 := by
    rw [option_all_iff]
    simp only [decide_eq_true_eq]
  have hl : bs.getLast?.all (fun b => decide (oLt b.low b.high)) = true ↔
      ∀ b ∈ bs.getLast?, oLt b.low b.high := by
    rw [option_all_iff]
    simp only [decide_eq_true_eq]
  constructor
  · rintro ⟨t, ht⟩
    rw [build] at ht
    split_ifs at ht with h0 h1 h2 h3 h4 h5 <;>
      first
        | exact Except.noConfusion ht
        | exact ⟨fun hnil => h0 (by simp [hnil]), ha.mp h1, hc.mp h2,
            hr.mp h3, hh.mp h4, hl.mp h5⟩
  · rintro ⟨hne, hasc, hcontig, hrate, hhead, hlast⟩
    refine ⟨bs, ?_⟩
    rw [build, if_neg (by simpa using hne),
      if_neg (not_not_intro (ha.mpr hasc)),
      if_neg (not_not_intro (hc.mpr hcontig)),
      if_neg (not_not_intro (hr.mpr hrate)),
      if_neg (not_not_intro (hh.mpr hhead)),
      if_neg (not_not_intro (hl.mpr hlast))]

theorem build_ok_id (bs t : List Bracket) (h : build bs = Except.ok t) :
    t = bs := by
  rw [build] at h
  split_ifs at h <;>
    first
      | exact Except.noConfusion h
      | exact (Except.ok.inj h).symm

/-! ### Claim theorems -/

/-- C1: for `grossIncome ≥ 0` and `shieldAmount ≥ 0`, every emitted
per-bracket result satisfies `shieldedAmount + taxedAmount =
totalAmountInBracket` with both parts non-negative, and the emitted
`totalAmountInBracket`s sum to `grossIncome`. -/
theorem C1_conservation (g s : ℚ) (hg : 0 ≤ g) (hs : 0 ≤ s) :
    (∀ r ∈ allocate g s,
      r.shielded + r.taxed = r.total ∧ 0 ≤ r.shielded ∧ 0 ≤ r.taxed) ∧
      sumTotals (allocate g s) = g := by
  constructor
  · intro r hr
    have h := allocAux_mem g (taxable_income g s) (taxable_le_gross hg hs)
      TAX_BRACKETS r hr
    exact ⟨h.1, h.2.2.1, h.2.1⟩
  · show sumTotals (allocAux g (taxable_income g s) TAX_BRACKETS) = g
    rw [allocAux_sumTotals g (taxable_income g s) TAX_BRACKETS 0 chain_TAX,
      sub_zero, max_eq_right hg]

theorem C1_conservation_witness :
    (0:ℚ) ≤ 120000 ∧ (0:ℚ) ≤ 30000 ∧
      ((∀ r ∈ allocate 120000 30000,
        r.shielded + r.taxed = r.total ∧ 0 ≤ r.shielded ∧ 0 ≤ r.taxed) ∧
        sumTotals (allocate 120000 30000) = 120000) :=
  ⟨by norm_num, by norm_num,
    C1_conservation 120000 30000 (by norm_num) (by norm_num)⟩

/-- C2 counterexample: on negative inputs the code does not fail with any
`InvalidInput` condition — it returns ordinary results: zero tax, zero
refund, and an empty allocation. -/
theorem C2_counterexample :
    calculate_tax_on_income (-1) = 0 ∧ calculate_tax_refund (-1) 5 = 0 ∧
      allocate (-1) 0 = [] := by
  refine ⟨by norm_num [calculate_tax_on_income],
    by norm_num [calculate_tax_refund], ?_⟩
  norm_num [allocate, allocAux, taxable_income, TAX_BRACKETS, omin]

/-- C2 amended: negative inputs are silently accepted, not rejected: for
`grossIncome < 0` the allocation emits nothing and both tax and refund are
0; for `shieldAmount < 0` the refund is clamped at 0 and the allocation
still returns a normal result conserving gross income. -/
theorem C2_amended (g s : ℚ) :
    (g < 0 →
      allocate g s = [] ∧ calculate_tax_on_income g = 0 ∧
        calculate_tax_refund g s = 0) ∧
      (s < 0 → 0 ≤ calculate_tax_refund g s ∧
        (0 ≤ g → sumTotals (allocate g s) = g)) := by
  constructor
  · intro hgneg
    refine ⟨?_, ?_, ?_⟩
    · exact allocAux_nil g (taxable_income g s) TAX_BRACKETS 0 chain_TAX
        (by linarith)
    · rw [calculate_tax_on_income, if_pos (by linarith)]
    · rw [calculate_tax_refund, if_pos (by linarith)]
  · intro _
    constructor
    · rw [calculate_tax_refund]
      by_cases hgle : g ≤ 0
      · rw [if_pos hgle]
      · rw [if_neg hgle]
        exact le_max_left _ _
    · intro hg
      show sumTotals (allocAux g (taxable_income g s) TAX_BRACKETS) = g
      rw [allocAux_sumTotals g (taxable_income g s) TAX_BRACKETS 0 chain_TAX,
        sub_zero, max_eq_right hg]

theorem C2_amended_witness :
    (allocate (-1) (-2) = [] ∧ calculate_tax_on_income (-1) = 0 ∧
        calculate_tax_refund (-1) (-2) = 0) ∧
      0 ≤ calculate_tax_refund (-1) (-2) :=
  ⟨(C2_amended (-1) (-2)).1 (by norm_num),
    ((C2_amended (-1) (-2)).2 (by norm_num)).1⟩

/-- C3: for `grossIncome ≥ 0` the allocation equals the spec's
break-on-first-empty-bracket enumeration, contains exactly one result per
bracket whose lower bound is passed by gross income (in ascending table
order, higher brackets omitted), and at `grossIncome = 0` nothing is
emitted and all aggregates are 0. -/
theorem C3_ordered_output (g s : ℚ) (hg : 0 ≤ g) :
    allocate g s = allocateStop g s ∧
      allocate g s =
        (TAX_BRACKETS.filter fun b => decide (b.low < g)).map
          (bracketResult g (taxable_income g s)) ∧
      (g = 0 →
        allocate g s = [] ∧ sumTotals (allocate g s) = 0 ∧
          totalTax (allocate g s) = 0 ∧ totalShielded (allocate g s) = 0) := by
  refine ⟨?_, ?_, ?_⟩
  · exact (allocStopAux_eq g (taxable_income g s) TAX_BRACKETS 0 chain_TAX).symm
  · exact allocAux_filter g (taxable_income g s) TAX_BRACKETS wf_TAX
  · intro hg0
    subst hg0
    have hnil : allocate 0 s = [] :=
      allocAux_nil 0 (taxable_income 0 s) TAX_BRACKETS 0 chain_TAX le_rfl
    rw [hnil]
    exact ⟨rfl, rfl, rfl, rfl⟩

theorem C3_ordered_output_witness :
    (0:ℚ) ≤ 120000 ∧
      (allocate 120000 0 = allocateStop 120000 0 ∧
        allocate 120000 0 =
          (TAX_BRACKETS.filter fun b => decide (b.low < 120000)).map
            (bracketResult 120000 (taxable_income 120000 0)) ∧
        ((120000:ℚ) = 0 →
          allocate 120000 0 = [] ∧ sumTotals (allocate 120000 0) = 0 ∧
            totalTax (allocate 120000 0) = 0 ∧
            totalShielded (allocate 120000 0) = 0)) :=
  ⟨by norm_num, C3_ordered_output 120000 0 (by norm_num)⟩

/-- C4: full shielding (`shieldAmount ≥ grossIncome ≥ 0`) drives taxable
income to 0, leaves every emitted result fully shielded (`taxedAmount = 0`)
and makes the total tax 0, both as the spec's taxed-times-rate aggregate
and through `calculate_tax_on_income` at the taxable income. -/
theorem C4_full_shield (g s : ℚ) (hg : 0 ≤ g) (hs : g ≤ s) :
    taxable_income g s = 0 ∧ (∀ r ∈ allocate g s, r.taxed = 0) ∧
      totalTax (allocate g s) = 0 ∧
      calculate_tax_on_income (taxable_income g s) = 0 := by
  have ht : taxable_income g s = 0 := max_eq_left (by linarith)
  have htaxed : ∀ r ∈ allocate g s, r.taxed = 0 :=
    allocAux_taxed_zero g (taxable_income g s) (le_of_eq ht) TAX_BRACKETS lows_TAX
  refine ⟨ht, htaxed, totalTax_eq_zero htaxed, ?_⟩
  rw [ht, calculate_tax_on_income, if_pos le_rfl]

theorem C4_full_shield_witness :
    (0:ℚ) ≤ 100 ∧ (100:ℚ) ≤ 200 ∧
      (taxable_income 100 200 = 0 ∧ (∀ r ∈ allocate 100 200, r.taxed = 0) ∧
        totalTax (allocate 100 200) = 0 ∧
        calculate_tax_on_income (taxable_income 100 200) = 0) :=
  ⟨by norm_num, by norm_num, C4_full_shield 100 200 (by norm_num) (by norm_num)⟩

/-- C5: at fixed `grossIncome ≥ 0`, a larger shield amount never decreases
the total shielded amount and never increases the taxed-times-rate total
tax. -/
theorem C5_monotone_shielding (g s1 s2 : ℚ) (hg : 0 ≤ g) (h12 : s1 ≤ s2) :
    totalShielded (allocate g s1) ≤ totalShielded (allocate g s2) ∧
      totalTax (allocate g s2) ≤ totalTax (allocate g s1) := by
  have ht : taxable_income g s2 ≤ taxable_income g s1 :=
    max_le_max le_rfl (by linarith)
  exact ⟨allocAux_totalShielded_mono g ht TAX_BRACKETS,
    allocAux_totalTax_mono g ht TAX_BRACKETS rates_TAX⟩

theorem C5_monotone_shielding_witness :
    (0:ℚ) ≤ 120000 ∧ (10000:ℚ) ≤ 30000 ∧
      (totalShielded (allocate 120000 10000) ≤
          totalShielded (allocate 120000 30000) ∧
        totalTax (allocate 120000 30000) ≤ totalTax (allocate 120000 10000)) :=
  ⟨by norm_num, by norm_num,
    C5_monotone_shielding 120000 10000 30000 (by norm_num) (by norm_num)⟩

/-- C7: with `shieldAmount = 0` every emitted result is fully taxed
(`shieldedAmount = 0`, `taxedAmount = totalAmountInBracket`), the total tax
equals the sum of `totalAmountInBracket * rate` over emitted results, and
coincides with `calculate_tax_on_income` at gross income. -/
theorem C7_no_shield (g : ℚ) (hg : 0 ≤ g) :
    (∀ r ∈ allocate g 0, r.shielded = 0 ∧ r.taxed = r.total) ∧
      totalTax (allocate g 0) =
        ((allocate g 0).map fun r => r.total * r.rate).sum ∧
      calculate_tax_on_income g = totalTax (allocate g 0) := by
  have ht : taxable_income g 0 = g := by
    rw [taxable_income, sub_zero]
    exact max_eq_right hg
  have hall : ∀ r ∈ allocate g 0, r.taxed = r.total ∧ r.shielded = 0 := by
    show ∀ r ∈ allocAux g (taxable_income g 0) TAX_BRACKETS, _
    rw [ht]
    exact allocAux_self_taxed g TAX_BRACKETS
  refine ⟨fun r hr => ⟨(hall r hr).2, (hall r hr).1⟩,
    totalTax_eq_totalsRate fun r hr => (hall r hr).1, ?_⟩
  rcases lt_or_eq_of_le hg with hgpos | hg0
  · rw [calculate_tax_on_income, if_neg (not_le.mpr hgpos)]
    show taxSum g TAX_BRACKETS =
      totalTax (allocAux g (taxable_income g 0) TAX_BRACKETS)
    rw [ht]
    exact taxSum_eq_totalTax g TAX_BRACKETS wf_TAX
  · have hnil : allocate g 0 = [] :=
      allocAux_nil g (taxable_income g 0) TAX_BRACKETS 0 chain_TAX (le_of_eq hg0.symm)
    rw [hnil, ← hg0, calculate_tax_on_income, if_pos le_rfl, totalTax_nil]

theorem C7_no_shield_witness :
    (0:ℚ) ≤ 120000 ∧
      ((∀ r ∈ allocate 120000 0, r.shielded = 0 ∧ r.taxed = r.total) ∧
        totalTax (allocate 120000 0) =
          ((allocate 120000 0).map fun r => r.total * r.rate).sum ∧
        calculate_tax_on_income 120000 = totalTax (allocate 120000 0)) :=
  ⟨by norm_num, C7_no_shield 120000 (by norm_num)⟩

/-- C9: `calculate_tax_refund` returns 0 for any non-positive gross income,
and its result is clamped at 0 for every pair of inputs, negative
contributions included. -/
theorem C9_refund_clamped (g c : ℚ) :
    (g ≤ 0 → calculate_tax_refund g c = 0) ∧ 0 ≤ calculate_tax_refund g c := by
  constructor
  · intro h
    rw [calculate_tax_refund, if_pos h]
  · rw [calculate_tax_refund]
    by_cases h : g ≤ 0
    · rw [if_pos h]
    · rw [if_neg h]
      exact le_max_left _ _

theorem C9_refund_clamped_witness :
    calculate_tax_refund (-5) 10 = 0 ∧ 0 ≤ calculate_tax_refund 100000 (-7) :=
  ⟨(C9_refund_clamped (-5) 10).1 (by norm_num),
    (C9_refund_clamped 100000 (-7)).2⟩

/-- C10: every row the `building_data` loop emits carries a strictly
positive amount — zero shielded or zero taxed slices produce no row. -/
theorem C10_rows_positive (g s : ℚ) :
    ∀ r ∈ building_data g s, 0 < r.amount :=
  rowsAux_amount_pos g (taxable_income g s) TAX_BRACKETS

theorem C10_rows_positive_witness :
    (⟨"Floor 1", 3891, "Tax-Shielded", 0.2005⟩ : Row) ∈
        building_data 60000 10000 ∧
      (0:ℚ) <
        (⟨"Floor 1", 3891, "Tax-Shielded", 0.2005⟩ : Row).amount :=
  ⟨by norm_num [building_data, rowsAux, taxable_income, TAX_BRACKETS, omin],
    C10_rows_positive 60000 10000 _
      (by norm_num [building_data, rowsAux, taxable_income, TAX_BRACKETS, omin])⟩

/-- C6 counterexample: at gross income 200000 with shield amount 100000 the
code reports `get_marginal_rate(200000) = 0.4797` (the bracket of gross
income), while the last emitted result with a positive taxed amount has
rate 0.3148 — the claim's equality fails. -/
theorem C6_counterexample :
    get_marginal_rate 200000 = 0.4797 ∧
      lastTaxedRate (allocate 200000 100000) = 0.3148 ∧
      get_marginal_rate 200000 ≠ lastTaxedRate (allocate 200000 100000) := by
  refine ⟨by norm_num [get_marginal_rate, findRate, TAX_BRACKETS, oLt], ?_, ?_⟩
  · norm_num [lastTaxedRate, allocate, allocAux, taxable_income, TAX_BRACKETS,
      omin, List.foldl]
  · norm_num [get_marginal_rate, findRate, oLt, lastTaxedRate, allocate,
      allocAux, taxable_income, TAX_BRACKETS, omin, List.foldl]

/-- C6 amended: the reported marginal rate is `get_marginal_rate` of gross
income and need not equal the rate of the last emitted result whose taxed
amount is positive (see the counterexample); that last-taxed rate is
instead characterised by taxable income: for any `shieldAmount ≥ 0`, when
taxable income is positive and lies strictly inside a bracket, the rate of
the last emitted result with positive taxed amount equals
`get_marginal_rate` of taxable income. -/
theorem C6_amended (g s : ℚ) (hs : 0 ≤ s) (ht : 0 < taxable_income g s)
    (n1 : taxable_income g s ≠ 53891) (n2 : taxable_income g s ≠ 58523)
    (n3 : taxable_income g s ≠ 94907) (n4 : taxable_income g s ≠ 117045)
    (n5 : taxable_income g s ≠ 181440) :
    lastTaxedRate (allocate g s) = get_marginal_rate (taxable_income g s) := by
  have htg : taxable_income g s ≤ g := by
    rw [taxable_income] at ht ⊢
    rcases max_cases 0 (g - s) with ⟨hm, _⟩ | ⟨hm, _⟩
    · rw [hm] at ht
      exact absurd ht (lt_irrefl 0)
    · rw [hm]
      linarith
  have hfold : lastTaxedRate (allocate g s) =
      List.foldl (fun a b => if b.low < taxable_income g s then b.rate else a)
        0 TAX_BRACKETS :=
    allocAux_lastTaxed g (taxable_income g s) TAX_BRACKETS 0 0 chain_TAX htg
  rw [hfold]
  set t := taxable_income g s with htdef
  rcases lt_or_gt_of_ne n1 with c1 | c1
  · norm_num [List.foldl, get_marginal_rate, findRate, oLt, TAX_BRACKETS,
      ht, ht.le, ht.not_le, c1,
      (show ¬ (53891:ℚ) < t by linarith), (show ¬ (58523:ℚ) < t by linarith),
      (show ¬ (94907:ℚ) < t by linarith), (show ¬ (117045:ℚ) < t by linarith),
      (show ¬ (181440:ℚ) < t by linarith)]
  · rcases lt_or_gt_of_ne n2 with c2 | c2
    · norm_num [List.foldl, get_marginal_rate, findRate, oLt, TAX_BRACKETS,
        ht, ht.le, ht.not_le, c1, c2,
        (show (53891:ℚ) ≤ t by linarith), (show ¬ t < 53891 by linarith),
        (show ¬ (58523:ℚ) < t by linarith),
        (show ¬ (94907:ℚ) < t by linarith),
        (show ¬ (117045:ℚ) < t by linarith),
        (show ¬ (181440:ℚ) < t by linarith)]
    · rcases lt_or_gt_of_ne n3 with c3 | c3
      · norm_num [List.foldl, get_marginal_rate, findRate, oLt, TAX_BRACKETS,
          ht, ht.le, ht.not_le, c2, c3,
          (show (53891:ℚ) < t by linarith), (show ¬ t < 53891 by linarith),
          (show (58523:ℚ) ≤ t by linarith), (show ¬ t < 58523 by linarith),
          (show ¬ (94907:ℚ) < t by linarith),
          (show ¬ (117045:ℚ) < t by linarith),
          (show ¬ (181440:ℚ) < t by linarith)]
      · rcases lt_or_gt_of_ne n4 with c4 | c4
        · norm_num [List.foldl, get_marginal_rate, findRate, oLt, TAX_BRACKETS,
            ht, ht.le, ht.not_le, c3, c4,
            (show (53891:ℚ) < t by linarith), (show ¬ t < 53891 by linarith),
            (show (58523:ℚ) < t by linarith), (show ¬ t < 58523 by linarith),
            (show (94907:ℚ) ≤ t by linarith), (show ¬ t < 94907 by linarith),
            (show ¬ (117045:ℚ) < t by linarith),
            (show ¬ (181440:ℚ) < t by linarith)]
        · rcases lt_or_gt_of_ne n5 with c5 | c5
          · norm_num [List.foldl, get_marginal_rate, findRate, oLt,
              TAX_BRACKETS, ht, ht.le, ht.not_le, c4, c5,
              (show (53891:ℚ) < t by linarith), (show ¬ t < 53891 by linarith),
              (show (58523:ℚ) < t by linarith), (show ¬ t < 58523 by linarith),
              (show (94907:ℚ) < t by linarith), (show ¬ t < 94907 by linarith),
              (show (117045:ℚ) ≤ t by linarith),
              (show ¬ t < 117045 by linarith),
              (show ¬ (181440:ℚ) < t by linarith)]
          · norm_num [List.foldl, get_marginal_rate, findRate, oLt,
              TAX_BRACKETS, ht, ht.le, ht.not_le, c5,
              (show (53891:ℚ) < t by linarith), (show ¬ t < 53891 by linarith),
              (show (58523:ℚ) < t by linarith), (show ¬ t < 58523 by linarith),
              (show (94907:ℚ) < t by linarith), (show ¬ t < 94907 by linarith),
              (show (117045:ℚ) < t by linarith),
              (show ¬ t < 117045 by linarith),
              (show (181440:ℚ) ≤ t by linarith),
              (show ¬ t < 181440 by linarith)]


/-- C8: the spec-modelled `BracketTable.build` succeeds exactly on
sequences satisfying the §3 invariants, returns the sequence unchanged (the
immutable table), accepts the concrete `TAX_BRACKETS` schedule, and on a
sequence violating several invariants at once reports the first violated
check (ascending order before rates or the zero first bound). -/
theorem C8_build_validation :
    (∀ bs, (∃ t, build bs = Except.ok t) ↔ ValidSeq bs) ∧
      (∀ bs t, build bs = Except.ok t → t = bs) ∧
      build TAX_BRACKETS = Except.ok TAX_BRACKETS ∧
      build [⟨"A", 10, some 20, 0.3⟩, ⟨"B", 5, some 10, 0.1⟩] =
        Except.error MalformedBracketTable.notAscending := by
  refine ⟨build_ok_iff, build_ok_id, ?_, ?_⟩
  · norm_num [build, pairwiseB, TAX_BRACKETS, oLt, Option.all]
  · norm_num [build, pairwiseB]

theorem C8_build_validation_witness :
    TAX_BRACKETS = TAX_BRACKETS ∧ ValidSeq TAX_BRACKETS :=
  ⟨C8_build_validation.2.1 TAX_BRACKETS TAX_BRACKETS
      (by norm_num [build, pairwiseB, TAX_BRACKETS, oLt, Option.all]),
    (C8_build_validation.1 TAX_BRACKETS).mp
      ⟨TAX_BRACKETS,
        by norm_num [build, pairwiseB, TAX_BRACKETS, oLt, Option.all]⟩⟩

theorem C6_amended_witness :
    (0:ℚ) ≤ 100 ∧ 0 < taxable_income 60000 100 ∧
      taxable_income 60000 100 ≠ 53891 ∧ taxable_income 60000 100 ≠ 58523 ∧
      taxable_income 60000 100 ≠ 94907 ∧ taxable_income 60000 100 ≠ 117045 ∧
      taxable_income 60000 100 ≠ 181440 ∧
      lastTaxedRate (allocate 60000 100) =
        get_marginal_rate (taxable_income 60000 100) :=
  ⟨by norm_num, by norm_num [taxable_income], by norm_num [taxable_income],
    by norm_num [taxable_income], by norm_num [taxable_income],
    by norm_num [taxable_income], by norm_num [taxable_income],
    C6_amended 60000 100 (by norm_num) (by norm_num [taxable_income])
      (by norm_num [taxable_income]) (by norm_num [taxable_income])
      (by norm_num [taxable_income]) (by norm_num [taxable_income])
      (by norm_num [taxable_income])⟩

end App
